import Mathlib

/-!
Shallow embedding of the lullaby deform system
(`src/lullaby/systems/deform/deform_system.cc`) and verification of its
specification.

The deform system's external collaborators (transform system, render system,
component stores) are modelled as explicit state and environment records.
Machine floats are modelled as exact rationals.  Geometry primitives from the
external math library (whose numeric formulas the spec declares
implementation-defined) are collected in a `MathPrims` record over which the
theorems quantify.
-/

namespace LullDeform

/-- Entity identifiers of the host entity framework. -/
abbrev Entity := Nat

/-- The null entity identifier. -/
def kNullEntity : Entity := 0

/-- Rational 3-vector standing in for a mathfu `vec3`. -/
structure Vec3 where
  x : ℚ
  y : ℚ
  z : ℚ
deriving DecidableEq

instance : Inhabited Vec3 := ⟨⟨0, 0, 0⟩⟩

/-- Componentwise vector addition. -/
def vadd (a b : Vec3) : Vec3 := ⟨a.x + b.x, a.y + b.y, a.z + b.z⟩

/-- Componentwise vector subtraction. -/
def vsub (a b : Vec3) : Vec3 := ⟨a.x - b.x, a.y - b.y, a.z - b.z⟩

/-- Scalar multiple of a vector. -/
def vscale (c : ℚ) (v : Vec3) : Vec3 := ⟨c * v.x, c * v.y, c * v.z⟩

/-- Dot product of two vectors. -/
def dotV (a b : Vec3) : ℚ := a.x * b.x + a.y * b.y + a.z * b.z

/-- Modelled from the spec: mathfu `vec3::Lerp`, linear interpolation
`(1 - t) * a + t * b` (external math library). -/
def lerpV (a b : Vec3) (t : ℚ) : Vec3 := vadd (vscale (1 - t) a) (vscale t b)

/-- The cylinder axis offset direction `mathfu::kAxisZ3f`. -/
def kAxisZ : Vec3 := ⟨0, 0, 1⟩

/-- Rational quaternion standing in for a mathfu `quat`. -/
structure Quat where
  w : ℚ
  x : ℚ
  y : ℚ
  z : ℚ
deriving DecidableEq

instance : Inhabited Quat := ⟨⟨1, 0, 0, 0⟩⟩

/-- Hamilton product of quaternions (mathfu `quat` multiplication). -/
def qmul (a b : Quat) : Quat :=
  ⟨a.w * b.w - a.x * b.x - a.y * b.y - a.z * b.z,
   a.w * b.x + a.x * b.w + a.y * b.z - a.z * b.y,
   a.w * b.y - a.x * b.z + a.y * b.w + a.z * b.x,
   a.w * b.z + a.x * b.y - a.y * b.x + a.z * b.w⟩

/-- A scale / rotation / translation triple (lullaby `Sqt`). -/
structure Sqt where
  translation : Vec3
  rotation : Quat
  scale : Vec3

/-- 4x4 rational matrix standing in for mathfu `mat4`. -/
abbrev Mat4 := Matrix (Fin 4) (Fin 4) ℚ

/-- Modelled from the spec: `MatrixFromSQT` / lullaby `CalculateTransformMatrix`
(external math library, `MatrixFromSQT(sqt)` contract of section 6): the affine
matrix whose rotation-scale block comes from the quaternion and scale and whose
last column is the translation. -/
def calculateTransformMatrix (sqt : Sqt) : Mat4 :=
  let q := sqt.rotation
  let s := sqt.scale
  let t := sqt.translation
  !![(1 - 2 * (q.y * q.y + q.z * q.z)) * s.x, 2 * (q.x * q.y - q.z * q.w) * s.y,
       2 * (q.x * q.z + q.y * q.w) * s.z, t.x;
     2 * (q.x * q.y + q.z * q.w) * s.x, (1 - 2 * (q.x * q.x + q.z * q.z)) * s.y,
       2 * (q.y * q.z - q.x * q.w) * s.z, t.y;
     2 * (q.x * q.z - q.y * q.w) * s.x, 2 * (q.y * q.z + q.x * q.w) * s.y,
       (1 - 2 * (q.x * q.x + q.y * q.y)) * s.z, t.z;
     0, 0, 0, 1]

/-- Modelled from the spec: mathfu `mat4::FromTranslationVector` (external math
library): the pure translation matrix. -/
def fromTranslationVector (v : Vec3) : Mat4 :=
  !![1, 0, 0, v.x;
     0, 1, 0, v.y;
     0, 0, 1, v.z;
     0, 0, 0, 1]

/-- Modelled from the spec: application of an affine 4x4 matrix to a position
(mathfu `mat4 * vec3`). -/
def mulPoint (m : Mat4) (v : Vec3) : Vec3 :=
  ⟨m 0 0 * v.x + m 0 1 * v.y + m 0 2 * v.z + m 0 3,
   m 1 0 * v.x + m 1 1 * v.y + m 1 2 * v.z + m 1 3,
   m 2 0 * v.x + m 2 1 * v.y + m 2 2 * v.z + m 2 3⟩

/-- Deformation modes of `DeformerDef` (`DeformMode` enum). -/
inductive DeformMode where
  | None
  | GlobalCylinder
  | CylinderBend
  | Waypoint
deriving DecidableEq

/-- A processed waypoint (`DeformSystem::Waypoint`): remapped position and
remapped Euler rotation in degrees. -/
structure Waypoint where
  remapped_position : Vec3
  remapped_rotation : Vec3
deriving DecidableEq

instance : Inhabited Waypoint := ⟨⟨⟨0, 0, 0⟩, ⟨0, 0, 0⟩⟩⟩

/-- A processed waypoint path (`DeformSystem::WaypointPath`). -/
structure WaypointPath where
  path_id : Nat
  parameterization_axis : Vec3
  waypoints : List Waypoint
  parameterization_values : List ℚ
deriving DecidableEq

/-- An axis-aligned bounding box (lullaby `Aabb`). -/
structure Aabb where
  min : Vec3
  max : Vec3
deriving DecidableEq

/-- Per-deforming-object record (`DeformSystem::Deformer`).  `entity` models
the component's `GetEntity()`; the store keys each record by that entity. -/
structure Deformer where
  entity : Entity
  mode : DeformMode
  radius : ℚ
  clamp_angle : ℚ
  paths : List (Nat × WaypointPath)
deriving DecidableEq

/-- Per-deformable-object record (`DeformSystem::Deformed`).  `entity` models
the component's `GetEntity()`; the store keys each record by that entity. -/
structure Deformed where
  entity : Entity
  deformer : Entity
  path_id : Nat
  deformer_from_entity_undeformed_space : Mat4
  undeformed_aabb : Aabb

/-- Authored waypoint data (flatbuffer `lull::Waypoint`). -/
structure WaypointDef where
  original_position : Vec3
  remapped_position : Vec3
  remapped_rotation : Vec3
deriving DecidableEq

/-- Authored waypoint path data (flatbuffer `lull::WaypointPath`); the
flatbuffer fields are nullable, hence the `Option`s. -/
structure WaypointPathDef where
  path_id : Option String
  waypoints : Option (List WaypointDef)

/-- Modelled from the spec: the external geometry/math primitives of section 6
whose numeric formulas are implementation-defined (mathfu and lullaby util,
not part of this repository's source).  The verification quantifies over any
implementation. -/
structure MathPrims where
  sqrt : ℚ → ℚ
  cylDeformSqt : Sqt → ℚ → ℚ → Mat4
  cylDeformMat : Mat4 → ℚ → ℚ → Mat4
  deformPoint : Vec3 → ℚ → Vec3
  sqtFromMatrix : Mat4 → Sqt
  inverse : Mat4 → Mat4
  quatFromEulerAngles : Vec3 → Quat
  hash : String → Nat
  degreesToRadians : ℚ

/-- A concrete (deliberately simple) instantiation of the external math
primitives, used to evaluate the embedding at concrete inputs (any
instantiation satisfying the section 6 contracts would do; the claims settled
with it do not depend on the primitives' numeric formulas). -/
def defaultPrims : MathPrims where
  sqrt := fun q => q
  cylDeformSqt := fun sqt _ _ => calculateTransformMatrix sqt
  cylDeformMat := fun m _ _ => m
  deformPoint := fun v _ => v
  sqtFromMatrix := fun m => ⟨⟨m 0 3, m 1 3, m 2 3⟩, ⟨1, 0, 0, 0⟩, ⟨1, 1, 1⟩⟩
  inverse := fun m => m
  quatFromEulerAngles := fun _ => ⟨1, 0, 0, 0⟩
  hash := fun s => s.length
  degreesToRadians := 1

/-- The empty string (used where the source supplies a default `std::string`). -/
def emptyStr : String := ""

/-- `GetRadius` (deform_system.cc lines 31-34): distance of the matrix's
translation from the Y axis, `sqrt(mat(0,3)^2 + mat(2,3)^2)`. -/
def getRadius (P : MathPrims) (m : Mat4) : ℚ :=
  P.sqrt (m 0 3 * m 0 3 + m 2 3 * m 2 3)

/-- Modelled from the spec: mathfu `vec3::Normalized`, the vector scaled by the
reciprocal of its length (external math library). -/
def normalized (P : MathPrims) (v : Vec3) : Vec3 :=
  vscale (1 / P.sqrt (dotV v v)) v

/-- `CalculateTransformMatrixFromParent` (deform_system.cc lines 38-44): the
standard transform given the SQT and a nullable parent world matrix. -/
def calculateTransformMatrixFromParent (sqt : Sqt) (world_from_parent_mat : Option Mat4) :
    Mat4 :=
  let parent_from_local_mat := calculateTransformMatrix sqt
  match world_from_parent_mat with
  | some w => w * parent_from_local_mat
  | none => parent_from_local_mat

/-- `CalculateParameterizationAxis` (deform_system.cc lines 49-61): the
normalized vector from the first waypoint's authored position to the last
waypoint's authored position.  NOTE: the source guards `waypoints() == nullptr
|| waypoints()->size() < 1`, although its own comment says it should return an
empty optional when there are less than 2 waypoints. -/
def calculateParameterizationAxis (P : MathPrims) (path : WaypointPathDef) :
    Option Vec3 :=
  match path.waypoints with
  | none => none
  | some [] => none
  | some (w0 :: rest) =>
    some (normalized P (vsub ((rest.getLastD w0).original_position) w0.original_position))

/-- Pointwise update of an entity-keyed table. -/
def upd {α : Type} (f : Entity → α) (a : Entity) (v : α) : Entity → α :=
  fun x => if x = a then v else f x

/-- Tag describing which world-from-local matrix closure `ApplyDeform`
installs on the transform system for an entity (the closures themselves are
modelled by `calculateMatrixCylinderBend` and friends, re-resolved by entity). -/
inductive FnTag where
  | globalCylinder (radius : ℚ)
  | cylinderBend (e : Entity)
  | waypoint (e : Entity)
deriving DecidableEq

/-- The deform system's component stores together with the tables of installed
callbacks held by the external transform and render systems. -/
structure DeformState where
  deformers : Entity → Option Deformer
  deformed : Entity → Option Deformed
  worldFn : Entity → Option FnTag
  meshFn : Entity → Bool

/-- The state with empty stores and no installed functions. -/
def emptyState : DeformState :=
  ⟨fun _ => none, fun _ => none, fun _ => none, fun _ => false⟩

/-- The read-only queries this system makes of the transform system:
`GetParent` (null entity when there is no parent) and
`GetWorldFromEntityMatrix` (null for unknown entities). -/
structure TransformEnv where
  parent : Entity → Entity
  worldFromEntity : Entity → Option Mat4

/-- Writes the cached `deformer_from_entity_undeformed_space` of an entity's
`Deformed` record (the source writes through the record pointer). -/
def setChain (st : DeformState) (e : Entity) (m : Mat4) : DeformState :=
  match st.deformed e with
  | some d =>
    { st with
      deformed := upd st.deformed e
        (some { d with deformer_from_entity_undeformed_space := m }) }
  | none => st

/-- Index of the first value strictly greater than the query, if any. -/
def findIdxGt (query : ℚ) : List ℚ → Option Nat
  | [] => none
  | v :: rest => if query < v then some 0 else (findIdxGt query rest).map (· + 1)

/-- Modelled from the spec: `FindPositionBetweenPoints` lives in lullaby/util
(outside this repository's source tree); section 6 fixes its contract as
`FindBracket(query, sortedValues) -> (minIndex, maxIndex, fraction in [0,1])`,
a bracketing pair of adjacent indices with an interpolation fraction, clamped
at the ends for out-of-range queries. -/
def findPositionBetweenPoints (query : ℚ) (values : List ℚ) : Nat × Nat × ℚ :=
  let n := values.length
  let idx := (findIdxGt query values).getD n
  let minIndex := min (max idx 1 - 1) (n - 2)
  let maxIndex := minIndex + 1
  let vmin := values.getD minIndex 0
  let vmax := values.getD maxIndex 0
  let raw := if vmax - vmin = 0 then 0 else (query - vmin) / (vmax - vmin)
  (minIndex, maxIndex, min 1 (max 0 raw))

/-- The bracketing computed by `CalculateWaypointTransformMatrix`
(deform_system.cc lines 370-374) for a given chain parameter value. -/
def waypointBracket (path : WaypointPath) (currentPoint : ℚ) : Nat × Nat × ℚ :=
  findPositionBetweenPoints currentPoint path.parameterization_values

/-- The interpolated remapped translation computed by
`CalculateWaypointTransformMatrix` (deform_system.cc lines 376-378). -/
def waypointDeformedTranslation (path : WaypointPath) (currentPoint : ℚ) : Vec3 :=
  let b := waypointBracket path currentPoint
  lerpV ((path.waypoints.getD b.1 default).remapped_position)
    ((path.waypoints.getD b.2.1 default).remapped_position) b.2.2

/-- The interpolated remapped Euler rotation computed by
`CalculateWaypointTransformMatrix` (deform_system.cc lines 380-382). -/
def waypointDeformedEulerRotation (path : WaypointPath) (currentPoint : ℚ) : Vec3 :=
  let b := waypointBracket path currentPoint
  lerpV ((path.waypoints.getD b.1 default).remapped_rotation)
    ((path.waypoints.getD b.2.1 default).remapped_rotation) b.2.2

/-- `DeformSystem::BuildWaypointPath` (deform_system.cc lines 205-247).
Returns the built path (or `none` on failure, where the source logs a
diagnostic) together with a flag recording whether the "Waypoint nodes aren't
sorted" warning was logged.  The loop faithfully pushes each parameterization
value *before* comparing against `parameterization_values.back()`. -/
def buildWaypointPath (P : MathPrims) (pd : WaypointPathDef) :
    Option WaypointPath × Bool :=
  match pd.waypoints with
  | none => (none, false)
  | some ws =>
    if ws.length = 0 then (none, false)
    else
      match calculateParameterizationAxis P pd with
      | none => (none, false)
      | some axis =>
        let path_id := P.hash (pd.path_id.getD emptyStr)
        let step := fun (acc : List Waypoint × List ℚ × Bool) (wd : WaypointDef) =>
          let wps := acc.1 ++ [⟨wd.remapped_position, wd.remapped_rotation⟩]
          let v := dotV wd.original_position axis
          let vals := acc.2.1 ++ [v]
          let warned := acc.2.2 || (!vals.isEmpty && decide (v < vals.getLastD 0))
          (wps, vals, warned)
        let r := ws.foldl step ([], [], false)
        (some ⟨path_id, axis, r.1, r.2.1⟩, r.2.2)

/-- `DeformSystem::PrepDeformerFromEntityUndeformedSpace` (deform_system.cc
lines 475-513).  Returns whether the undeformed chain is available together
with the state (whose cached chain matrix the source may have written through
the `Deformed` pointer). -/
def prepDeformerFromEntityUndeformedSpace (env : TransformEnv) (st : DeformState)
    (e : Entity) (local_sqt : Sqt) (deformer : Option Deformer)
    (deformed : Option Deformed) : Bool × DeformState :=
  match deformed with
  | none => (false, st)
  | some d =>
    match deformer with
    | none => (false, st)
    | some _ =>
      if e = d.deformer then
        (false, setChain st e 1)
      else
        let parent_entity := env.parent e
        match st.deformed parent_entity with
        | none => (false, st)
        | some parent_deformed =>
          if parent_deformed.deformer = kNullEntity then (false, st)
          else
            (true, setChain st e
              (parent_deformed.deformer_from_entity_undeformed_space *
                calculateTransformMatrix local_sqt))

/-- `DeformSystem::CalculateMatrixCylinderBend` (deform_system.cc lines
329-345).  Returns the world matrix together with the state after the chain
preparation.  On success the result composes the deformer's current world
matrix with the cylinder deformation of the cached chain and never uses the
caller-supplied parent world matrix. -/
def calculateMatrixCylinderBend (P : MathPrims) (env : TransformEnv)
    (st : DeformState) (e : Entity) (local_sqt : Sqt)
    (world_from_parent_mat : Option Mat4) : Mat4 × DeformState :=
  let deformed := st.deformed e
  let deformer := match deformed with
    | some d => st.deformers d.deformer
    | none => none
  match prepDeformerFromEntityUndeformedSpace env st e local_sqt deformer deformed with
  | (false, st') => (calculateTransformMatrixFromParent local_sqt world_from_parent_mat, st')
  | (true, st') =>
    match st'.deformed e, deformer with
    | some d, some dr =>
      (((env.worldFromEntity d.deformer).getD 1) *
        P.cylDeformMat d.deformer_from_entity_undeformed_space dr.radius dr.clamp_angle,
        st')
    | _, _ => (calculateTransformMatrixFromParent local_sqt world_from_parent_mat, st')

/-- `DeformSystem::CalculateWaypointTransformMatrix` (deform_system.cc lines
347-395).  Returns the world matrix together with the state after the chain
preparation. -/
def calculateWaypointTransformMatrix (P : MathPrims) (env : TransformEnv)
    (st : DeformState) (e : Entity) (local_sqt : Sqt)
    (world_from_parent_mat : Option Mat4) : Mat4 × DeformState :=
  let deformed := st.deformed e
  let deformer := match deformed with
    | some d => st.deformers d.deformer
    | none => none
  match prepDeformerFromEntityUndeformedSpace env st e local_sqt deformer deformed with
  | (false, st') => (calculateTransformMatrixFromParent local_sqt world_from_parent_mat, st')
  | (true, st') =>
    match st'.deformed e, deformer with
    | some d, some dr =>
      match (dr.paths.find? (fun pr => pr.1 == d.path_id)) with
      | none =>
        (calculateTransformMatrixFromParent local_sqt world_from_parent_mat, st')
      | some pr =>
        let path := pr.2
        let entity_from_root_sqt :=
          P.sqtFromMatrix d.deformer_from_entity_undeformed_space
        let current_point := dotV entity_from_root_sqt.translation path.parameterization_axis
        let deformed_translation := waypointDeformedTranslation path current_point
        let deformed_euler_rotation := waypointDeformedEulerRotation path current_point
        let deformed_rotation :=
          P.quatFromEulerAngles (vscale P.degreesToRadians deformed_euler_rotation)
        let deformed_sqt : Sqt :=
          ⟨deformed_translation, qmul deformed_rotation local_sqt.rotation, local_sqt.scale⟩
        let deformed_world_from_deformer := (env.worldFromEntity dr.entity).getD 1
        (calculateTransformMatrixFromParent deformed_sqt (some deformed_world_from_deformer),
          st')
    | _, _ => (calculateTransformMatrixFromParent local_sqt world_from_parent_mat, st')

/-- Modelled from the spec: `GetBoundingBox` / `ComputeBoundingBox` (lullaby
util, outside this repository's source): componentwise min/max of the vertex
positions. -/
def getBoundingBox (data : List Vec3) : Aabb :=
  match data with
  | [] => ⟨⟨0, 0, 0⟩, ⟨0, 0, 0⟩⟩
  | v :: rest =>
    rest.foldl
      (fun ab p =>
        ⟨⟨min ab.min.x p.x, min ab.min.y p.y, min ab.min.z p.z⟩,
         ⟨max ab.max.x p.x, max ab.max.y p.y, max ab.max.z p.z⟩⟩)
      ⟨v, v⟩

/-- `DeformSystem::CylinderBendDeformMesh` (deform_system.cc lines 397-431):
maps each vertex into deformer root space, wraps it onto the cylinder and maps
it back through the deformed-space transforms.  Missing world matrices leave
the mesh unchanged (the source's early return). -/
def cylinderBendDeformMesh (P : MathPrims) (env : TransformEnv)
    (deformed : Deformed) (deformer : Deformer) (data : List Vec3) : List Vec3 :=
  match env.worldFromEntity deformed.entity, env.worldFromEntity deformer.entity with
  | some world_from_entity, some world_from_deformer =>
    let radius := deformer.radius
    let root_from_entity :=
      fromTranslationVector (vscale (-radius) kAxisZ) *
        deformed.deformer_from_entity_undeformed_space
    let entity_from_root :=
      P.inverse world_from_entity * world_from_deformer *
        fromTranslationVector (vscale radius kAxisZ)
    data.map (fun pos =>
      mulPoint entity_from_root (P.deformPoint (mulPoint root_from_entity pos) radius))
  | _, _ => data

/-- `DeformSystem::DeformMesh` (deform_system.cc lines 296-327).  Result:
`some (state, vertices, errorLogged)` on a run that completes, `none` when the
run dereferences a null `Deformer` pointer.  In the legacy branch the source
guard reads `deformer != nullptr || deformer->mode != DeformMode_GlobalCylinder`:
a non-null legacy deformer short-circuits into the error return, and a null
one reaches the `deformer->mode` dereference, so the legacy wrap body below
the guard is unreachable. -/
def deformMesh (P : MathPrims) (env : TransformEnv) (st : DeformState) (e : Entity)
    (data : List Vec3) : Option (DeformState × List Vec3 × Bool) :=
  match st.deformed e with
  | some d =>
    match st.deformers d.deformer with
    | some dr =>
      if dr.mode = DeformMode.CylinderBend then
        let d' := { d with undeformed_aabb := getBoundingBox data }
        let st' := { st with deformed := upd st.deformed e (some d') }
        some (st', cylinderBendDeformMesh P env d' dr data, false)
      else if dr.mode = DeformMode.Waypoint then
        some (st, data, false)
      else
        some (st, data, true)
    | none => some (st, data, true)
  | none =>
    match st.deformers e with
    | some _ => some (st, data, true)
    | none => none

/-- `DeformSystem::ApplyDeform` (deform_system.cc lines 249-294): installs (or
clears) the entity's world-from-local matrix function on the transform system
according to the deformer's mode.  The installed closures are represented by
`FnTag`s; their behaviour is modelled by `calculateMatrixCylinderBend` and
`calculateWaypointTransformMatrix`, re-resolved through the entity id. -/
def applyDeform (st : DeformState) (e : Entity) (deformer : Option Deformer) :
    DeformState :=
  match deformer with
  | none => { st with worldFn := upd st.worldFn e none }
  | some dr =>
    match dr.mode with
    | DeformMode.None => { st with worldFn := upd st.worldFn e none }
    | DeformMode.GlobalCylinder =>
      { st with worldFn := upd st.worldFn e (some (FnTag.globalCylinder dr.radius)) }
    | DeformMode.CylinderBend =>
      { st with worldFn := upd st.worldFn e (some (FnTag.cylinderBend e)) }
    | DeformMode.Waypoint =>
      { st with worldFn := upd st.worldFn e (some (FnTag.waypoint e)) }

/-- The resolved deformer entity of `SetDeformerRecursive` (deform_system.cc
lines 452-455): `deformer->GetEntity()` for a non-null deformer, else
`kNullEntity`. -/
def resolvedEntity : Option Deformer → Entity
  | some dr => dr.entity
  | none => kNullEntity

/-- The scene-graph hierarchy below an entity, as reported by the transform
system's `GetChildren`: a finite rose tree of entity ids. -/
inductive ETree where
  | node (e : Entity) (children : List ETree)
deriving Inhabited

/-- The entity at the root of a subtree. -/
def ETree.root : ETree → Entity
  | .node e _ => e

/-- `DeformSystem::SetDeformerRecursive` (deform_system.cc lines 450-473) over
a worklist of subtrees (depth-first, exactly the source's recursion order).
For the head subtree `node e cs`: if the entity's `Deformed` record exists and
the resolved deformer entity differs from the record's current `deformer`, the
record is updated, `ApplyDeform` runs, and the children that carry `Deformed`
records are processed recursively; otherwise nothing happens (the source's
idempotence guard). -/
def sdrList : DeformState → List ETree → Option Deformer → DeformState
  | st, [], _ => st
  | st, ETree.node e cs :: rest, dr =>
    match st.deformed e with
    | none => sdrList st rest dr
    | some d =>
      if resolvedEntity dr ≠ d.deformer then
        sdrList
          (sdrList
            (applyDeform
              { st with
                deformed := upd st.deformed e (some { d with deformer := resolvedEntity dr }) }
              e dr)
            cs dr)
          rest dr
      else sdrList st rest dr
termination_by _ ts _ => sizeOf ts
decreasing_by all_goals (simp_wf; try omega)

/-- `DeformSystem::SetDeformerRecursive` on a single entity's subtree. -/
def setDeformerRecursive (st : DeformState) (t : ETree) (deformer : Option Deformer) :
    DeformState :=
  sdrList st [t] deformer

/-- `DeformSystem::Destroy` (deform_system.cc lines 159-168): if the entity was
deformed, propagate a null deformer through its subtree; clear the mesh
deformation function on the render system; destroy both records. -/
def destroy (t : ETree) (st : DeformState) : DeformState :=
  let st1 := if (st.deformed t.root).isSome then setDeformerRecursive st t none else st
  let st2 := { st1 with meshFn := upd st1.meshFn t.root false }
  { st2 with
    deformers := upd st2.deformers t.root none,
    deformed := upd st2.deformed t.root none }

/-- All entities occurring in a forest of subtrees. -/
def forestEntities : List ETree → List Entity
  | [] => []
  | ETree.node e cs :: rest => e :: (forestEntities cs ++ forestEntities rest)
termination_by ts => sizeOf ts
decreasing_by all_goals (simp_wf; try omega)

/-- A live propagation chain: `LiveChain st ts x` holds when some subtree in
the forest `ts` reaches entity `x` from its root through nodes that all carry
`Deformed` records with non-null deformer references (the condition under
which the source's recursion actually visits `x` when propagating a null
deformer). -/
inductive LiveChain (st : DeformState) : List ETree → Entity → Prop where
  | head (e : Entity) (cs : List ETree) (rest : List ETree) (d : Deformed) :
      st.deformed e = some d → d.deformer ≠ kNullEntity →
      LiveChain st (ETree.node e cs :: rest) e
  | down (e : Entity) (cs : List ETree) (rest : List ETree) (x : Entity) (d : Deformed) :
      st.deformed e = some d → d.deformer ≠ kNullEntity →
      LiveChain st cs x → LiveChain st (ETree.node e cs :: rest) x
  | skip (t : ETree) (rest : List ETree) (x : Entity) :
      LiveChain st rest x → LiveChain st (t :: rest) x

/-! Concrete states, environments and authored data used to evaluate the
embedding at explicit inputs. -/

/-- A zero bounding box for concrete example records. -/
def aabb0 : Aabb := ⟨⟨0, 0, 0⟩, ⟨0, 0, 0⟩⟩

/-- A transform environment with no parents and no world matrices. -/
def envTriv : TransformEnv := ⟨fun _ => kNullEntity, fun _ => none⟩

/-- A legacy `GlobalCylinder` deformer on entity 7. -/
def drGC : Deformer := ⟨7, DeformMode.GlobalCylinder, 2, 0, []⟩

/-- State where entity 7 carries only the legacy `GlobalCylinder` deformer
(no `Deformed` record). -/
def stGC : DeformState :=
  { emptyState with deformers := upd emptyState.deformers 7 (some drGC) }

/-- Authored path whose waypoint list is present but empty. -/
def pdNoWaypoints : WaypointPathDef := ⟨none, some []⟩

/-- Authored path with exactly one waypoint. -/
def pdOneWaypoint : WaypointPathDef :=
  ⟨none, some [⟨⟨1, 2, 3⟩, ⟨4, 5, 6⟩, ⟨0, 0, 0⟩⟩]⟩

/-- Authored path whose authored positions project to the non-monotonic
parameter sequence [0, 2, 1]. -/
def pdUnsorted : WaypointPathDef :=
  ⟨none,
   some [⟨⟨0, 0, 0⟩, ⟨0, 0, 0⟩, ⟨0, 0, 0⟩⟩,
         ⟨⟨2, 0, 0⟩, ⟨0, 0, 0⟩, ⟨0, 0, 0⟩⟩,
         ⟨⟨1, 0, 0⟩, ⟨0, 0, 0⟩, ⟨0, 0, 0⟩⟩]⟩

/-- The waypoint path of spec section 8: parameter values [0, 10, 20] and
remapped positions [(0,0,0), (1,0,0), (3,0,0)]. -/
def pathBracket : WaypointPath :=
  ⟨0, ⟨1, 0, 0⟩,
   [⟨⟨0, 0, 0⟩, ⟨0, 0, 0⟩⟩, ⟨⟨1, 0, 0⟩, ⟨0, 0, 0⟩⟩, ⟨⟨3, 0, 0⟩, ⟨0, 0, 0⟩⟩],
   [0, 10, 20]⟩

/-- A waypoint deformer on entity 9. -/
def drWp : Deformer := ⟨9, DeformMode.Waypoint, 1, 0, []⟩

/-- A `Deformed` record for entity 4 whose deformer is entity 9. -/
def dWp : Deformed := ⟨4, 9, 0, 1, aabb0⟩

/-- State where entity 4 is deformed by the waypoint deformer on entity 9. -/
def stWp : DeformState :=
  { emptyState with
    deformed := upd emptyState.deformed 4 (some dWp),
    deformers := upd emptyState.deformers 9 (some drWp) }

/-- An example local SQT. -/
def sqtEx : Sqt := ⟨⟨1, 2, 3⟩, ⟨1, 0, 0, 0⟩, ⟨1, 1, 1⟩⟩

/-- A cylinder-bend deformer on entity 9. -/
def drCB : Deformer := ⟨9, DeformMode.CylinderBend, 3, 1, []⟩

/-- A `Deformed` record for child entity 2 (deformer entity 9). -/
def dChild : Deformed := ⟨2, 9, 0, 1, aabb0⟩

/-- A `Deformed` record for parent entity 1 (deformer entity 9) with a
non-trivial cached chain. -/
def dParent : Deformed := ⟨1, 9, 0, fromTranslationVector ⟨1, 0, 0⟩, aabb0⟩

/-- Environment where entity 2's parent is entity 1 and all world matrices are
the identity. -/
def envChain : TransformEnv :=
  ⟨fun n => if n = 2 then 1 else kNullEntity, fun _ => some 1⟩

/-- State with the deformed chain 1 -> 2 hanging under deformer entity 9. -/
def stChain : DeformState :=
  { emptyState with
    deformed := upd (upd emptyState.deformed 1 (some dParent)) 2 (some dChild),
    deformers := upd emptyState.deformers 9 (some drCB) }

/-- A cylinder-bend deformer carried by entity 1 itself. -/
def drSelf : Deformer := ⟨1, DeformMode.CylinderBend, 3, 1, []⟩

/-- A `Deformed` record for entity 1 whose deformer is entity 1 itself. -/
def dSelf : Deformed := ⟨1, 1, 0, fromTranslationVector ⟨5, 0, 0⟩, aabb0⟩

/-- State where entity 1 is its own deformer. -/
def stSelf : DeformState :=
  { emptyState with
    deformed := upd emptyState.deformed 1 (some dSelf),
    deformers := upd emptyState.deformers 1 (some drSelf) }

/-- A `Deformed` record for entity 3 already assigned to deformer entity 9. -/
def dIdem : Deformed := ⟨3, 9, 0, 1, aabb0⟩

/-- State where entity 3 is already assigned to deformer entity 9. -/
def stIdem : DeformState :=
  { emptyState with deformed := upd emptyState.deformed 3 (some dIdem) }

/-- Entity 3's subtree (one child, entity 4). -/
def tIdem : ETree := ETree.node 3 [ETree.node 4 []]

/-- The deformer on entity 9 used for the idempotence example. -/
def drIdem : Deformer := ⟨9, DeformMode.CylinderBend, 1, 0, []⟩

/-- Subtree of entity 1 with middle child 2 and grandchild 3. -/
def tGap : ETree := ETree.node 1 [ETree.node 2 [ETree.node 3 []]]

/-- A `Deformed` record for entity 1 (deformer entity 9). -/
def dGapTop : Deformed := ⟨1, 9, 0, 1, aabb0⟩

/-- A `Deformed` record for entity 3 (deformer entity 9). -/
def dGapLeaf : Deformed := ⟨3, 9, 0, 1, aabb0⟩

/-- State where entities 1 and 3 are deformed but the middle entity 2 carries
no `Deformed` record; both 1 and 3 have installed matrix functions. -/
def stGap : DeformState :=
  { emptyState with
    deformed := upd (upd emptyState.deformed 1 (some dGapTop)) 3 (some dGapLeaf),
    worldFn := upd (upd emptyState.worldFn 1 (some (FnTag.cylinderBend 1)))
      3 (some (FnTag.cylinderBend 3)) }

/-- `Deformed` records for the fully live chain 1 -> 2 -> 3. -/
def dLive1 : Deformed := ⟨1, 9, 0, 1, aabb0⟩

/-- Second record of the live chain. -/
def dLive2 : Deformed := ⟨2, 9, 0, 1, aabb0⟩

/-- Third record of the live chain. -/
def dLive3 : Deformed := ⟨3, 9, 0, 1, aabb0⟩

/-- Subtree 1 -> 2 -> 3 for the live chain. -/
def tLive : ETree := ETree.node 1 [ETree.node 2 [ETree.node 3 []]]

/-- State where the whole chain 1 -> 2 -> 3 is deformed (deformer entity 9)
with installed matrix functions and a mesh function on the root. -/
def stLive : DeformState :=
  { emptyState with
    deformed := upd (upd (upd emptyState.deformed 1 (some dLive1)) 2 (some dLive2))
      3 (some dLive3),
    worldFn := upd (upd (upd emptyState.worldFn 1 (some (FnTag.cylinderBend 1)))
      2 (some (FnTag.cylinderBend 2))) 3 (some (FnTag.cylinderBend 3)),
    meshFn := upd emptyState.meshFn 1 true }

/-! Helper lemmas about `upd`, `applyDeform`, `sdrList` and `LiveChain`. -/

theorem upd_same {α : Type} (f : Entity → α) (a : Entity) (v : α) : upd f a v a = v := by
  simp [upd]

theorem upd_ne {α : Type} (f : Entity → α) (a : Entity) (v : α) (x : Entity) (h : x ≠ a) :
    upd f a v x = f x := by
  simp [upd, h]

theorem applyDeform_deformed (st : DeformState) (e : Entity) (dr : Option Deformer) :
    (applyDeform st e dr).deformed = st.deformed := by
  cases dr with
  | none => rfl
  | some d => cases h : d.mode <;> simp [applyDeform, h]

theorem applyDeform_deformers (st : DeformState) (e : Entity) (dr : Option Deformer) :
    (applyDeform st e dr).deformers = st.deformers := by
  cases dr with
  | none => rfl
  | some d => cases h : d.mode <;> simp [applyDeform, h]

theorem applyDeform_meshFn (st : DeformState) (e : Entity) (dr : Option Deformer) :
    (applyDeform st e dr).meshFn = st.meshFn := by
  cases dr with
  | none => rfl
  | some d => cases h : d.mode <;> simp [applyDeform, h]

theorem applyDeform_worldFn_ne (st : DeformState) (e : Entity) (dr : Option Deformer)
    (x : Entity) (h : x ≠ e) : (applyDeform st e dr).worldFn x = st.worldFn x := by
  cases dr with
  | none => simp [applyDeform, upd, h]
  | some d => cases hm : d.mode <;> simp [applyDeform, hm, upd, h]

theorem applyDeform_none_worldFn (st : DeformState) (e : Entity) :
    (applyDeform st e none).worldFn e = none := by
  simp [applyDeform, upd]

theorem sdrList_nil (st : DeformState) (dr : Option Deformer) :
    sdrList st [] dr = st := by
  simp [sdrList]

theorem sdrList_cons_none (st : DeformState) (e : Entity) (cs rest : List ETree)
    (dr : Option Deformer) (h : st.deformed e = none) :
    sdrList st (ETree.node e cs :: rest) dr = sdrList st rest dr := by
  simp [sdrList, h]

theorem sdrList_cons_eq (st : DeformState) (e : Entity) (cs rest : List ETree)
    (dr : Option Deformer) (d : Deformed) (h : st.deformed e = some d)
    (he : resolvedEntity dr = d.deformer) :
    sdrList st (ETree.node e cs :: rest) dr = sdrList st rest dr := by
  simp [sdrList, h, he]

theorem sdrList_cons_ne (st : DeformState) (e : Entity) (cs rest : List ETree)
    (dr : Option Deformer) (d : Deformed) (h : st.deformed e = some d)
    (he : resolvedEntity dr ≠ d.deformer) :
    sdrList st (ETree.node e cs :: rest) dr =
      sdrList
        (sdrList
          (applyDeform
            { st with
              deformed := upd st.deformed e (some { d with deformer := resolvedEntity dr }) }
            e dr)
          cs dr)
        rest dr := by
  simp [sdrList, h, he]

theorem forestEntities_nil : forestEntities [] = [] := by
  simp [forestEntities]

theorem forestEntities_cons (e : Entity) (cs rest : List ETree) :
    forestEntities (ETree.node e cs :: rest) =
      e :: (forestEntities cs ++ forestEntities rest) := by
  simp [forestEntities]

theorem sdrList_meshFn (st : DeformState) (ts : List ETree) (dr : Option Deformer) :
    (sdrList st ts dr).meshFn = st.meshFn := by
  induction st, ts, dr using sdrList.induct with
  | case1 st dr => rw [sdrList_nil]
  | case2 st e cs rest dr h ih => rw [sdrList_cons_none st e cs rest dr h]; exact ih
  | case3 st e cs rest dr d h hne ih1 ih2 =>
    rw [sdrList_cons_ne st e cs rest dr d h hne, ih2, ih1, applyDeform_meshFn]
  | case4 st e cs rest dr d h hne ih =>
    rw [sdrList_cons_eq st e cs rest dr d h (not_ne_iff.mp hne)]; exact ih

theorem sdrList_deformers (st : DeformState) (ts : List ETree) (dr : Option Deformer) :
    (sdrList st ts dr).deformers = st.deformers := by
  induction st, ts, dr using sdrList.induct with
  | case1 st dr => rw [sdrList_nil]
  | case2 st e cs rest dr h ih => rw [sdrList_cons_none st e cs rest dr h]; exact ih
  | case3 st e cs rest dr d h hne ih1 ih2 =>
    rw [sdrList_cons_ne st e cs rest dr d h hne, ih2, ih1, applyDeform_deformers]
  | case4 st e cs rest dr d h hne ih =>
    rw [sdrList_cons_eq st e cs rest dr d h (not_ne_iff.mp hne)]; exact ih

theorem sdrList_frame (x : Entity) (st : DeformState) (ts : List ETree)
    (dr : Option Deformer) :
    x ∉ forestEntities ts →
      (sdrList st ts dr).deformed x = st.deformed x ∧
      (sdrList st ts dr).worldFn x = st.worldFn x := by
  induction st, ts, dr using sdrList.induct with
  | case1 st dr => intro _; rw [sdrList_nil]; exact ⟨rfl, rfl⟩
  | case2 st e cs rest dr h ih =>
    intro hx
    rw [forestEntities_cons] at hx
    simp only [List.mem_cons, List.mem_append, not_or] at hx
    rw [sdrList_cons_none st e cs rest dr h]
    exact ih (by simp [hx.2.2])
  | case3 st e cs rest dr d h hne ih1 ih2 =>
    intro hx
    rw [forestEntities_cons] at hx
    simp only [List.mem_cons, List.mem_append, not_or] at hx
    obtain ⟨hxe, hxcs, hxrest⟩ := hx
    rw [sdrList_cons_ne st e cs rest dr d h hne]
    obtain ⟨ihd2, ihw2⟩ := ih2 hxrest
    obtain ⟨ihd1, ihw1⟩ := ih1 hxcs
    rw [ihd2, ihw2, ihd1, ihw1, applyDeform_deformed,
      applyDeform_worldFn_ne _ _ _ _ hxe]
    exact ⟨upd_ne _ _ _ _ hxe, rfl⟩
  | case4 st e cs rest dr d h hne ih =>
    intro hx
    rw [forestEntities_cons] at hx
    simp only [List.mem_cons, List.mem_append, not_or] at hx
    rw [sdrList_cons_eq st e cs rest dr d h (not_ne_iff.mp hne)]
    exact ih (by simp [hx.2.2])

theorem sdrList_none_preserved (x : Entity) (st : DeformState) (ts : List ETree)
    (dr : Option Deformer) :
    dr = none → st.worldFn x = none → (sdrList st ts dr).worldFn x = none := by
  induction st, ts, dr using sdrList.induct with
  | case1 st dr => intro _ hw; rw [sdrList_nil]; exact hw
  | case2 st e cs rest dr h ih =>
    intro hdr hw
    rw [sdrList_cons_none st e cs rest dr h]
    exact ih hdr hw
  | case3 st e cs rest dr d h hne ih1 ih2 =>
    intro hdr hw
    subst hdr
    rw [sdrList_cons_ne st e cs rest none d h hne]
    refine ih2 rfl (ih1 rfl ?_)
    by_cases hxe : x = e
    · subst hxe; exact applyDeform_none_worldFn _ _
    · rw [applyDeform_worldFn_ne _ _ _ _ hxe]; exact hw
  | case4 st e cs rest dr d h hne ih =>
    intro hdr hw
    rw [sdrList_cons_eq st e cs rest dr d h (not_ne_iff.mp hne)]
    exact ih hdr hw

theorem liveChain_congr {st st' : DeformState} {ts : List ETree} {x : Entity}
    (h : LiveChain st ts x) :
    (∀ y ∈ forestEntities ts, st'.deformed y = st.deformed y) → LiveChain st' ts x := by
  induction h with
  | head e cs rest d hd hnn =>
    intro hagree
    exact LiveChain.head e cs rest d
      ((hagree e (by rw [forestEntities_cons]; exact List.mem_cons_self _ _)).trans hd) hnn
  | down e cs rest x' d hd hnn hc ih =>
    intro hagree
    refine LiveChain.down e cs rest x' d
      ((hagree e (by rw [forestEntities_cons]; exact List.mem_cons_self _ _)).trans hd) hnn
      (ih ?_)
    intro y hy
    refine hagree y ?_
    rw [forestEntities_cons]
    exact List.mem_cons_of_mem _ (List.mem_append_left _ hy)
  | skip t rest x' hc ih =>
    intro hagree
    obtain ⟨e, cs⟩ := t
    refine LiveChain.skip _ rest x' (ih ?_)
    intro y hy
    refine hagree y ?_
    rw [forestEntities_cons]
    exact List.mem_cons_of_mem _ (List.mem_append_right _ hy)

theorem sdrList_clears (x : Entity) (st : DeformState) (ts : List ETree)
    (dr : Option Deformer) :
    dr = none → (forestEntities ts).Nodup → LiveChain st ts x →
      (sdrList st ts dr).worldFn x = none := by
  induction st, ts, dr using sdrList.induct with
  | case1 st dr => intro _ _ hl; cases hl
  | case2 st e cs rest dr h ih =>
    intro hdr hnd hl
    rw [sdrList_cons_none st e cs rest dr h]
    rw [forestEntities_cons] at hnd
    cases hl with
    | head _ _ _ d hd _ => rw [h] at hd; cases hd
    | down _ _ _ _ d hd _ _ => rw [h] at hd; cases hd
    | skip _ _ _ hc =>
      exact ih hdr ((List.nodup_cons.mp hnd).2.of_append_right) hc
  | case3 st e cs rest dr d h hne ih1 ih2 =>
    intro hdr hnd hl
    subst hdr
    rw [sdrList_cons_ne st e cs rest none d h hne]
    rw [forestEntities_cons] at hnd
    have hecs : e ∉ forestEntities cs :=
      fun hmem => (List.nodup_cons.mp hnd).1 (List.mem_append_left _ hmem)
    have herest : e ∉ forestEntities rest :=
      fun hmem => (List.nodup_cons.mp hnd).1 (List.mem_append_right _ hmem)
    have hndcs : (forestEntities cs).Nodup := (List.nodup_cons.mp hnd).2.of_append_left
    have hndrest : (forestEntities rest).Nodup := (List.nodup_cons.mp hnd).2.of_append_right
    have hdisj : (forestEntities cs).Disjoint (forestEntities rest) :=
      List.disjoint_of_nodup_append (List.nodup_cons.mp hnd).2
    cases hl with
    | head _ _ _ d' hd _ =>
      refine sdrList_none_preserved _ _ rest none rfl ?_
      refine sdrList_none_preserved _ _ cs none rfl ?_
      exact applyDeform_none_worldFn _ _
    | down _ _ _ _ d' hd _ hc =>
      refine sdrList_none_preserved x _ rest none rfl ?_
      refine ih1 rfl hndcs (liveChain_congr hc ?_)
      intro y hy
      rw [applyDeform_deformed]
      exact upd_ne _ _ _ _ (fun hye => hecs (hye ▸ hy))
    | skip _ _ _ hc =>
      refine ih2 rfl hndrest (liveChain_congr hc ?_)
      intro y hy
      have hycs : y ∉ forestEntities cs := fun hmem => hdisj hmem hy
      have hye : y ≠ e := fun hye => herest (hye ▸ hy)
      rw [(sdrList_frame y _ cs none hycs).1, applyDeform_deformed]
      exact upd_ne _ _ _ _ hye
  | case4 st e cs rest dr d h hne ih =>
    intro hdr hnd hl
    subst hdr
    have hd0 : d.deformer = kNullEntity := (not_ne_iff.mp hne).symm
    rw [sdrList_cons_eq st e cs rest none d h (not_ne_iff.mp hne)]
    rw [forestEntities_cons] at hnd
    cases hl with
    | head _ _ _ d' hd hnn =>
      rw [h] at hd
      cases hd
      exact absurd hd0 hnn
    | down _ _ _ _ d' hd hnn _ =>
      rw [h] at hd
      cases hd
      exact absurd hd0 hnn
    | skip _ _ _ hc =>
      exact ih rfl ((List.nodup_cons.mp hnd).2.of_append_right) hc

/-! The claims. -/

/-- C2: the claim states that an entity with no `Deformed` record but a
`GlobalCylinder` `Deformer` record gets the legacy cylinder wrap applied to
its vertices (deformation not skipped).  The code's legacy guard
`deformer != nullptr || deformer->mode != DeformMode_GlobalCylinder` is
inverted: a present legacy deformer short-circuits into the error return, so
the mesh is left untouched and the error is logged, contradicting the claim
and the code's own comment describing the legacy case. -/
theorem claim_C2 :
    deformMesh defaultPrims envTriv stGC 7 [⟨1, 2, 3⟩] =
      some (stGC, [⟨1, 2, 3⟩], true) := rfl

/-- C10: the claim states that evaluating the legacy-branch guard never
dereferences a null `Deformer` pointer and that an entity with neither record
is skipped with a log message.  In the code, when the entity has no `Deformer`
record the guard's left disjunct `deformer != nullptr` is false and the right
disjunct evaluates `deformer->mode` on the null pointer (modelled as `none`),
contradicting the claim. -/
theorem claim_C10 :
    deformMesh defaultPrims envTriv emptyState 9 [⟨0, 0, 0⟩] = none := rfl

/-- C9: for every entity whose `Deformed` record resolves to a deformer in
`Waypoint` mode, the mesh mutator leaves the state and the vertex buffer
unmodified and does not report an error. -/
theorem claim_C9 (P : MathPrims) (env : TransformEnv) (st : DeformState) (e : Entity)
    (data : List Vec3) (d : Deformed) (dr : Deformer)
    (hd : st.deformed e = some d)
    (hdr : st.deformers d.deformer = some dr)
    (hm : dr.mode = DeformMode.Waypoint) :
    deformMesh P env st e data = some (st, data, false) := by
  simp [deformMesh, hd, hdr, hm]

/-- Witness for C9 at a concrete state: entity 4 deformed by the waypoint
deformer on entity 9. -/
theorem claim_C9_witness :
    deformMesh defaultPrims envTriv stWp 4 [⟨1, 0, 0⟩] =
      some (stWp, [⟨1, 0, 0⟩], false) :=
  claim_C9 defaultPrims envTriv stWp 4 [⟨1, 0, 0⟩] dWp drWp rfl rfl rfl

/-- C5: the claim states that waypoint-path construction fails both for an
empty waypoint list and whenever there are fewer than 2 waypoints.  The code
rejects the empty list, but `CalculateParameterizationAxis` guards
`size() < 1` (its own comment says less than 2), so a single-waypoint path
is built successfully with a degenerate normalized-zero axis, contradicting
the claim for the one-waypoint case. -/
theorem claim_C5 :
    (buildWaypointPath defaultPrims pdNoWaypoints).1 = none ∧
    ((buildWaypointPath defaultPrims pdOneWaypoint).1).isSome = true := by
  exact ⟨rfl, rfl⟩

/-- C6: the claim states that every waypoint receives `dot(position, axis)` as
its parameter value with no re-sorting and that a warning is emitted whenever
the sequence is not non-decreasing.  The code pushes each value onto
`parameterization_values` *before* comparing against
`parameterization_values.back()`, so every comparison is `v < v` and the
warning can never fire: on the non-monotonic sequence [0, 2, 1] all values are
kept in order but no warning is logged, contradicting the warning half of the
claim. -/
theorem claim_C6 :
    ((buildWaypointPath defaultPrims pdUnsorted).1.map
      (fun p => p.parameterization_values)) = some [0, 2, 1] ∧
    ¬ List.Pairwise (· ≤ ·) [(0 : ℚ), 2, 1] ∧
    (buildWaypointPath defaultPrims pdUnsorted).2 = false := by
  have h : buildWaypointPath defaultPrims pdUnsorted =
      (some ⟨defaultPrims.hash emptyStr, ⟨1, 0, 0⟩,
        [⟨⟨0, 0, 0⟩, ⟨0, 0, 0⟩⟩, ⟨⟨0, 0, 0⟩, ⟨0, 0, 0⟩⟩, ⟨⟨0, 0, 0⟩, ⟨0, 0, 0⟩⟩],
        [0, 2, 1]⟩, false) := by
    norm_num [buildWaypointPath, pdUnsorted, calculateParameterizationAxis, normalized,
      defaultPrims, dotV, vsub, vscale, List.getLastD, List.foldl]
  rw [h]
  norm_num

/-- C8: for the spec's example path (parameter values [0, 10, 20], remapped
positions [(0,0,0), (1,0,0), (3,0,0)]): a chain parameter of 5 brackets
between indices (0, 1) with fraction 1/2 and interpolated translation
(1/2, 0, 0); 25 clamps to the last segment (1, 2) with fraction 1 and
translation (3, 0, 0); -5 clamps to the first segment (0, 1) with fraction 0
and translation (0, 0, 0). -/
theorem claim_C8 :
    waypointBracket pathBracket 5 = (0, 1, 1/2) ∧
    waypointDeformedTranslation pathBracket 5 = ⟨1/2, 0, 0⟩ ∧
    waypointBracket pathBracket 25 = (1, 2, 1) ∧
    waypointDeformedTranslation pathBracket 25 = ⟨3, 0, 0⟩ ∧
    waypointBracket pathBracket (-5) = (0, 1, 0) ∧
    waypointDeformedTranslation pathBracket (-5) = ⟨0, 0, 0⟩ := by
  refine ⟨?_, ?_, ?_, ?_, ?_, ?_⟩ <;>
    norm_num [waypointBracket, waypointDeformedTranslation, findPositionBetweenPoints,
      findIdxGt, pathBracket, lerpV, vadd, vscale, List.getD, min_def, max_def]

/-- C4: deformer assignment is idempotent: when the resolved deformer entity
equals the record's current `deformer` reference, `SetDeformerRecursive`
performs no work at all: the state (stores, installed matrix functions, mesh
functions) is unchanged and no recursion into children happens. -/
theorem claim_C4 (st : DeformState) (t : ETree) (dr : Option Deformer) (d : Deformed)
    (hd : st.deformed t.root = some d)
    (h : resolvedEntity dr = d.deformer) :
    setDeformerRecursive st t dr = st := by
  obtain ⟨e, cs⟩ := t
  simp only [ETree.root] at hd
  unfold setDeformerRecursive
  rw [sdrList_cons_eq st e cs [] dr d hd h, sdrList_nil]

/-- Witness for C4: re-assigning deformer entity 9 to entity 3 (already
assigned to 9) leaves the state untouched. -/
theorem claim_C4_witness :
    setDeformerRecursive stIdem tIdem (some drIdem) = stIdem :=
  claim_C4 stIdem tIdem (some drIdem) dIdem rfl rfl

/-- C1: for every deformed object that is not its own deformer and whose
parent carries a `Deformed` record with a resolved (non-null) deformer, the
chain preparation writes
`undeformedFromParentChain = parent.undeformedFromParentChain * matrixFromSQT(localSQT)`
and reports success, and the cylinder-bend derivation built on it does not
depend on the caller-supplied (already deformed) parent world matrix. -/
theorem claim_C1 (P : MathPrims) (env : TransformEnv) (st : DeformState) (e : Entity)
    (local_sqt : Sqt) (d pd : Deformed) (dr : Deformer)
    (hd : st.deformed e = some d)
    (hdr : st.deformers d.deformer = some dr)
    (hself : e ≠ d.deformer)
    (hp : st.deformed (env.parent e) = some pd)
    (hres : pd.deformer ≠ kNullEntity) :
    prepDeformerFromEntityUndeformedSpace env st e local_sqt (some dr) (some d) =
      (true, setChain st e
        (pd.deformer_from_entity_undeformed_space * calculateTransformMatrix local_sqt)) ∧
    ∀ w1 w2 : Option Mat4,
      calculateMatrixCylinderBend P env st e local_sqt w1 =
        calculateMatrixCylinderBend P env st e local_sqt w2 := by
  have hprep : prepDeformerFromEntityUndeformedSpace env st e local_sqt (some dr) (some d) =
      (true, setChain st e
        (pd.deformer_from_entity_undeformed_space * calculateTransformMatrix local_sqt)) := by
    simp [prepDeformerFromEntityUndeformedSpace, hself, hp, hres]
  refine ⟨hprep, fun w1 w2 => ?_⟩
  simp [calculateMatrixCylinderBend, hd, hdr, hprep, setChain, upd_same]

/-- Witness for C1: entity 2 under parent 1, both deformed by entity 9's
cylinder-bend deformer; the preparation succeeds with the composed chain and
the bend matrix is the same for two different parent world matrices. -/
theorem claim_C1_witness :
    (prepDeformerFromEntityUndeformedSpace envChain stChain 2 sqtEx (some drCB) (some dChild) =
      (true, setChain stChain 2
        (dParent.deformer_from_entity_undeformed_space * calculateTransformMatrix sqtEx))) ∧
    calculateMatrixCylinderBend defaultPrims envChain stChain 2 sqtEx
        (some (fromTranslationVector ⟨1, 2, 3⟩)) =
      calculateMatrixCylinderBend defaultPrims envChain stChain 2 sqtEx none :=
  ⟨(claim_C1 defaultPrims envChain stChain 2 sqtEx dChild dParent drCB rfl rfl
      (by decide) rfl (by decide)).1,
   (claim_C1 defaultPrims envChain stChain 2 sqtEx dChild dParent drCB rfl rfl
      (by decide) rfl (by decide)).2 (some (fromTranslationVector ⟨1, 2, 3⟩)) none⟩

/-- C3 (counterexample): the claim states that for an object that is its own
deformer the chain preparation sets the chain to the identity and the chain
counts as available, so cylinder-bend derivation does not fall back to
ordinary parent-composition.  In the code the self-deformer branch returns
`false` after writing the identity chain, so the derivation does fall back:
here, at a concrete self-deformed entity, the preparation reports failure and
the bend matrix is exactly the ordinary parent-composition. -/
theorem claim_C3_cex :
    (prepDeformerFromEntityUndeformedSpace envTriv stSelf 1 sqtEx
      (some drSelf) (some dSelf)).1 = false ∧
    calculateMatrixCylinderBend defaultPrims envTriv stSelf 1 sqtEx
        (some (fromTranslationVector ⟨1, 2, 3⟩)) =
      (calculateTransformMatrixFromParent sqtEx (some (fromTranslationVector ⟨1, 2, 3⟩)),
        setChain stSelf 1 1) :=
  ⟨rfl, rfl⟩

/-- C3 (amended): for a deformed object that is its own deformer, the chain
preparation writes the identity chain but reports failure, so both the
cylinder-bend and the waypoint derivations fall back to ordinary
parent-composition of the local SQT. -/
theorem claim_C3 (P : MathPrims) (env : TransformEnv) (st : DeformState) (e : Entity)
    (local_sqt : Sqt) (d : Deformed) (dr : Deformer)
    (hd : st.deformed e = some d)
    (hdr : st.deformers d.deformer = some dr)
    (hself : e = d.deformer) :
    prepDeformerFromEntityUndeformedSpace env st e local_sqt (some dr) (some d) =
      (false, setChain st e 1) ∧
    (∀ w : Option Mat4,
      calculateMatrixCylinderBend P env st e local_sqt w =
        (calculateTransformMatrixFromParent local_sqt w, setChain st e 1)) ∧
    (∀ w : Option Mat4,
      calculateWaypointTransformMatrix P env st e local_sqt w =
        (calculateTransformMatrixFromParent local_sqt w, setChain st e 1)) := by
  have hprep : prepDeformerFromEntityUndeformedSpace env st e local_sqt (some dr) (some d) =
      (false, setChain st e 1) := by
    simp [prepDeformerFromEntityUndeformedSpace, hself]
  refine ⟨hprep, fun w => ?_, fun w => ?_⟩
  · simp [calculateMatrixCylinderBend, hd, hdr, hprep]
  · simp [calculateWaypointTransformMatrix, hd, hdr, hprep]

/-- Witness for C3 (amended) at the concrete self-deformed entity 1. -/
theorem claim_C3_witness :
    (prepDeformerFromEntityUndeformedSpace envTriv stSelf 1 sqtEx (some drSelf) (some dSelf) =
      (false, setChain stSelf 1 1)) ∧
    calculateMatrixCylinderBend defaultPrims envTriv stSelf 1 sqtEx none =
      (calculateTransformMatrixFromParent sqtEx none, setChain stSelf 1 1) ∧
    calculateWaypointTransformMatrix defaultPrims envTriv stSelf 1 sqtEx none =
      (calculateTransformMatrixFromParent sqtEx none, setChain stSelf 1 1) :=
  ⟨(claim_C3 defaultPrims envTriv stSelf 1 sqtEx dSelf drSelf rfl rfl rfl).1,
   (claim_C3 defaultPrims envTriv stSelf 1 sqtEx dSelf drSelf rfl rfl rfl).2.1 none,
   (claim_C3 defaultPrims envTriv stSelf 1 sqtEx dSelf drSelf rfl rfl rfl).2.2 none⟩

theorem liveChain_single_isSome {st : DeformState} {t : ETree} {x : Entity}
    (h : LiveChain st [t] x) : (st.deformed t.root).isSome = true := by
  cases h with
  | head e cs rest d hd hnn => simp [ETree.root, hd]
  | down e cs rest x' d hd hnn hc => simp [ETree.root, hd]
  | skip t' rest x' hc => cases hc

/-- C7 (amended): destroying an entity carrying a `Deformed` record propagates
a null deformer along every chain of children that carry `Deformed` records
with non-null deformer references (assuming each entity occurs once in the
subtree): each entity on such a chain, the destroyed entity included, gets a
null world-from-local matrix function installed; the entity's mesh
deformation function is set to null and both its `Deformer` and `Deformed`
records are removed.  Descendants behind a child without a `Deformed` record,
or behind a record whose deformer reference is already null, are not
visited. -/
theorem claim_C7 (t : ETree) (st : DeformState) (x : Entity)
    (hnd : (forestEntities [t]).Nodup)
    (h : LiveChain st [t] x) :
    (destroy t st).worldFn x = none ∧
    (destroy t st).meshFn t.root = false ∧
    (destroy t st).deformers t.root = none ∧
    (destroy t st).deformed t.root = none := by
  have hs : (st.deformed t.root).isSome = true := liveChain_single_isSome h
  have hw : (sdrList st [t] none).worldFn x = none :=
    sdrList_clears x st [t] none rfl hnd h
  simp only [destroy, setDeformerRecursive, hs, if_true]
  exact ⟨hw, upd_same _ _ _, upd_same _ _ _, upd_same _ _ _⟩

/-- Witness for C7 (amended): destroying entity 1 of the fully deformed chain
1 -> 2 -> 3 clears the matrix function of the grandchild 3, clears the mesh
function of 1, and removes both of 1's records. -/
theorem claim_C7_witness :
    (destroy tLive stLive).worldFn 3 = none ∧
    (destroy tLive stLive).meshFn tLive.root = false ∧
    (destroy tLive stLive).deformers tLive.root = none ∧
    (destroy tLive stLive).deformed tLive.root = none :=
  claim_C7 tLive stLive 3
    (by simp [tLive, forestEntities_cons, forestEntities_nil])
    (LiveChain.down 1 [ETree.node 2 [ETree.node 3 []]] [] 3 dLive1 rfl (by decide)
      (LiveChain.down 2 [ETree.node 3 []] [] 3 dLive2 rfl (by decide)
        (LiveChain.head 3 [] [] dLive3 rfl (by decide))))

/-- C7 (counterexample): the claim states that destroying a deformed entity
clears the matrix function of *every* descendant carrying a `Deformed`
record.  The propagation only recurses into children that themselves carry
`Deformed` records: with deformed entity 1, non-deformed child 2 and deformed
grandchild 3, destroying entity 1 leaves entity 3's installed matrix function
in place. -/
theorem claim_C7_cex :
    (stGap.deformed 3).isSome = true ∧
    (destroy tGap stGap).worldFn 3 = some (FnTag.cylinderBend 3) := by
  constructor
  · rfl
  · simp [destroy, setDeformerRecursive, ETree.root, tGap, stGap, dGapTop, dGapLeaf,
      emptyState, sdrList, applyDeform, upd, resolvedEntity, kNullEntity]

end LullDeform
